import Mathlib

/-!
Shallow embedding of the AetherUI `CommandPalette` engine
(`src/components/CommandPalette.tsx`): registry normalization
(`commandGroups`), the filter pipeline (`filteredGroups`,
`filteredCommands`, `limitedGroups`), the navigation/close handlers
(`handleClose`, `handleKeyDown`, `handleSelectCommand`) and the
query-reset effect (`setQueryStep`).
-/

/-- What invoking a TypeScript `action: () => void | Promise<void>` does:
return normally (or return a promise that resolves), throw `e`
synchronously during the call, or return a promise that later rejects
with `e`. A caller that does not `await` the call sees `throws` but not
`rejects`; an `await` turns a rejection into a throw at the await point. -/
inductive ActionBehavior where
  | ret
  | throws (e : String)
  | rejects (e : String)
  deriving Repr, DecidableEq

/-- A command entry. The `action` field is modelled by the behavior its
invocation exhibits (`ActionBehavior`). -/
structure Command where
  id : String
  label : String
  description : Option String := none
  keywords : List String := []
  action : ActionBehavior := ActionBehavior.ret
  disabled : Bool := false
  deriving Repr

/-- A named group of commands. -/
structure CommandGroup where
  id : String
  label : Option String := none
  commands : List Command
  deriving Repr

/-- The `commands` prop: `Command[] | CommandGroup[]`. -/
inductive Registry where
  | flat (cs : List Command)
  | grouped (gs : List CommandGroup)
  deriving Repr

/-- `commandGroups` memo: duck-types on `firstItem && 'commands' in firstItem`.
A non-empty grouped list passes through; anything else (a flat list, or an
empty list of either shape, whose `firstItem` is `undefined`) is wrapped in
the synthetic group `{ id: 'default', commands }`. -/
def commandGroups : Registry → List CommandGroup
  | Registry.grouped (g :: gs) => g :: gs
  | Registry.grouped [] => [{ id := "default", commands := [] }]
  | Registry.flat cs => [{ id := "default", commands := cs }]

/-- Helper for `jsIncludes`: does `needle` occur as a contiguous run
inside the character list? -/
def jsIncludesAux (needle : List Char) : List Char → Bool
  | [] => needle.isEmpty
  | c :: cs => needle.isPrefixOf (c :: cs) || jsIncludesAux needle cs

/-- JavaScript `haystack.includes(needle)`: substring containment. -/
def jsIncludes (haystack needle : String) : Bool :=
  jsIncludesAux needle.data haystack.data

/-- The `defaultFilter` closure: collect `[label, description, ...keywords]`,
drop falsy entries (`filter(Boolean)` removes both `undefined` and `""`),
lowercase each, and test whether any term contains the query. -/
def defaultFilter (command : Command) (q : String) : Bool :=
  let searchTerms :=
    (([command.label] ++ command.description.toList ++ command.keywords).filter
      (fun t => !t.isEmpty)).map String.toLower
  searchTerms.any (fun term => jsIncludes term q)

/-- JavaScript `s.trim()`: strip leading and trailing whitespace. -/
def jsTrim (s : String) : String :=
  ⟨((s.data.dropWhile Char.isWhitespace).reverse.dropWhile Char.isWhitespace).reverse⟩

/-- `filteredGroups` memo: `if (!query.trim()) return commandGroups;`
otherwise filter each group's commands by `!cmd.disabled && filter(cmd,
lowerQuery)` and drop groups left empty. -/
def filteredGroups (filterFn : Option (Command → String → Bool))
    (commandGroups : List CommandGroup) (query : String) : List CommandGroup :=
  if (jsTrim query).isEmpty then commandGroups
  else
    let lowerQuery := query.toLower
    let filter := filterFn.getD defaultFilter
    (commandGroups.map (fun g =>
        { g with commands := (g.commands.filter
            (fun cmd => !cmd.disabled && filter cmd lowerQuery)) })).filter
      (fun g => !g.commands.isEmpty)

/-- `filteredCommands` memo: `filteredGroups.flatMap(group => group.commands)`. -/
def filteredCommands (filteredGroups : List CommandGroup) : List Command :=
  filteredGroups.flatMap (fun g => g.commands)

/-- The loop body of the `limitedGroups` memo, with the running `count`
made explicit. Note the source adds the group's *untruncated* length to
`count` (`count += group.commands.length`), and breaks when
`remaining <= 0`; with `Nat` subtraction that is `maxResults - count = 0`. -/
def limitedGroupsAux (maxResults : Nat) : Nat → List CommandGroup → List CommandGroup
  | _, [] => []
  | count, g :: gs =>
    let remaining := maxResults - count
    if remaining = 0 then []
    else
      { g with commands := g.commands.take remaining } ::
        limitedGroupsAux maxResults (count + g.commands.length) gs

/-- `limitedGroups` memo: walk `filteredGroups`, slicing each group's
commands to the remaining budget, starting from `count = 0`. -/
def limitedGroups (maxResults : Nat) (filteredGroups : List CommandGroup) :
    List CommandGroup :=
  limitedGroupsAux maxResults 0 filteredGroups

/-- Total number of commands across a list of groups. -/
def commandCount (gs : List CommandGroup) : Nat :=
  (gs.map (fun g => g.commands.length)).sum

/-- A JavaScript number as it occurs in `selectedIndex`: an integer or
`NaN` (the result of `x % 0`). -/
inductive JSNum where
  | int (i : Int)
  | nan
  deriving Repr, DecidableEq

/-- `setSelectedIndex((prev) => (prev + 1) % filteredCommands.length)`.
JavaScript `%` by zero yields `NaN`, and `NaN` propagates through `+` and
`%`; on the nonnegative dividends arising here, JS remainder is `Int.tmod`. -/
def moveNext (len : Nat) : JSNum → JSNum
  | JSNum.nan => JSNum.nan
  | JSNum.int i => if len = 0 then JSNum.nan else JSNum.int (Int.tmod (i + 1) len)

/-- `setSelectedIndex((prev) => (prev - 1 + filteredCommands.length) % filteredCommands.length)`. -/
def movePrevious (len : Nat) : JSNum → JSNum
  | JSNum.nan => JSNum.nan
  | JSNum.int i => if len = 0 then JSNum.nan else JSNum.int (Int.tmod (i - 1 + len) len)

/-- JavaScript array indexing `flat[selectedIndex]`: `undefined` for `NaN`,
negative, or out-of-range indices. -/
def jsIndex (l : List Command) : JSNum → Option Command
  | JSNum.nan => none
  | JSNum.int i => if 0 ≤ i then l[i.toNat]? else none

/-- Per-instance configuration: `isControlled` is `controlledIsOpen !==
undefined`, `hasOnClose` records whether an `onClose` prop was supplied,
`closeOnSelect` defaults to `true`. -/
structure PaletteConfig where
  isControlled : Bool
  hasOnClose : Bool
  closeOnSelect : Bool := true
  deriving Repr

/-- Component state: the `internalIsOpen`, `query` and `selectedIndex`
`useState` hooks, plus the owner-supplied `controlledIsOpen` prop. -/
structure PaletteState where
  internalIsOpen : Bool
  controlledIsOpen : Bool
  query : String
  selectedIndex : JSNum
  deriving Repr, DecidableEq

/-- `const isOpen = isControlled ? controlledIsOpen : internalIsOpen`. -/
def isOpen (cfg : PaletteConfig) (st : PaletteState) : Bool :=
  if cfg.isControlled then st.controlledIsOpen else st.internalIsOpen

/-- `handleClose`: in controlled mode call `onClose?.()` (internal flag
untouched), otherwise clear `internalIsOpen`; then reset `query` and
`selectedIndex`, and call `onClose?.()` again unconditionally. Returns the
new state and how many times `onClose` was invoked. -/
def handleClose (cfg : PaletteConfig) (st : PaletteState) : PaletteState × Nat :=
  let branch : PaletteState × Nat :=
    if cfg.isControlled then (st, if cfg.hasOnClose then 1 else 0)
    else ({ st with internalIsOpen := false }, 0)
  ({ branch.1 with query := "", selectedIndex := JSNum.int 0 },
    branch.2 + (if cfg.hasOnClose then 1 else 0))

/-- Observable outcome of one keyboard/click handler run: the next state,
the number of `onClose` invocations, and the eventual result of the
command action if one was invoked — `Except.error e` whether the action
threw `e` synchronously (the error propagates out of the handler) or its
returned promise rejected with `e` (the error escapes as an unhandled
rejection); the palette catches neither. -/
structure KeyDownResult where
  state : PaletteState
  onCloseCalls : Nat
  actionResult : Option (Except String Unit)
  deriving Repr

/-- `handleKeyDown`: the `switch (e.key)` over `ArrowDown`, `ArrowUp`,
`Enter`, `Escape`. The Enter case calls `selectedCommand.action()` without
`await`: a synchronous throw aborts the handler before the `closeOnSelect`
check, but a returned rejecting promise does not stop it — the close still
runs and the rejection escapes asynchronously (recorded in
`actionResult`); keys without a case (e.g. `Home`, `End`) fall through. -/
def handleKeyDown (cfg : PaletteConfig) (flat : List Command)
    (st : PaletteState) (key : String) : KeyDownResult :=
  match key with
  | "ArrowDown" => ⟨{ st with selectedIndex := moveNext flat.length st.selectedIndex }, 0, none⟩
  | "ArrowUp" => ⟨{ st with selectedIndex := movePrevious flat.length st.selectedIndex }, 0, none⟩
  | "Enter" =>
    match jsIndex flat st.selectedIndex with
    | some selectedCommand =>
      if !selectedCommand.disabled then
        match selectedCommand.action with
        | ActionBehavior.ret =>
          if cfg.closeOnSelect then
            let c := handleClose cfg st
            ⟨c.1, c.2, some (Except.ok ())⟩
          else ⟨st, 0, some (Except.ok ())⟩
        | ActionBehavior.throws e => ⟨st, 0, some (Except.error e)⟩
        | ActionBehavior.rejects e =>
          if cfg.closeOnSelect then
            let c := handleClose cfg st
            ⟨c.1, c.2, some (Except.error e)⟩
          else ⟨st, 0, some (Except.error e)⟩
      else ⟨st, 0, none⟩
    | none => ⟨st, 0, none⟩
  | "Escape" =>
    let c := handleClose cfg st
    ⟨c.1, c.2, none⟩
  | _ => ⟨st, 0, none⟩

/-- `handleSelectCommand` (the click path): return early on a disabled
command, then `await command.action()` — here both a synchronous throw and
an awaited rejection abort before the `closeOnSelect` check — then close
if configured. -/
def handleSelectCommand (cfg : PaletteConfig) (st : PaletteState)
    (command : Command) : KeyDownResult :=
  if command.disabled then ⟨st, 0, none⟩
  else
    match command.action with
    | ActionBehavior.throws e => ⟨st, 0, some (Except.error e)⟩
    | ActionBehavior.rejects e => ⟨st, 0, some (Except.error e)⟩
    | ActionBehavior.ret =>
      if cfg.closeOnSelect then
        let c := handleClose cfg st
        ⟨c.1, c.2, some (Except.ok ())⟩
      else ⟨st, 0, some (Except.ok ())⟩

/-- `setQuery(q)` together with the `useEffect(() => setSelectedIndex(0),
[query])` effect: React re-renders and re-runs the effect only when the
stored query value actually changed (`Object.is` bail-out, `[query]`
dependency array). -/
def setQueryStep (st : PaletteState) (q : String) : PaletteState :=
  if q = st.query then st
  else { st with query := q, selectedIndex := JSNum.int 0 }

/-- The spec's worked example: `{label:"Save"}`. -/
def saveCmd : Command := { id := "save", label := "Save" }

/-- The spec's worked example: `{label:"Save As", keywords:["export"]}`. -/
def saveAsCmd : Command := { id := "saveAs", label := "Save As", keywords := ["export"] }

/-- The spec's worked example: `{label:"Load", disabled:true}`. -/
def loadCmd : Command := { id := "load", label := "Load", disabled := true }

/-- The spec's worked example registry, supplied as a flat list. -/
def exampleRegistry : Registry := Registry.flat [saveCmd, saveAsCmd, loadCmd]

/-- A plain enabled command used to build bulk test data. -/
def mkCmd (n : Nat) : Command := { id := toString n, label := toString n }

/-- First group of five matching commands for the truncation example. -/
def groupA : CommandGroup := { id := "a", commands := (List.range 5).map mkCmd }

/-- Second group of five matching commands for the truncation example. -/
def groupB : CommandGroup := { id := "b", commands := (List.range 5).map (fun n => mkCmd (n + 5)) }

/-- A command whose action throws `"boom"` synchronously. -/
def bombCmd : Command := { id := "bomb", label := "Bomb", action := ActionBehavior.throws "boom" }

/-- A command whose action returns a promise that rejects with `"boom"`. -/
def rejectCmd : Command :=
  { id := "reject", label := "Reject", action := ActionBehavior.rejects "boom" }

/-- An uncontrolled palette configuration with default `closeOnSelect`. -/
def uncontrolledCfg : PaletteConfig := { isControlled := false, hasOnClose := false }

/-- A controlled palette configuration with an `onClose` handler supplied. -/
def controlledCfg : PaletteConfig := { isControlled := true, hasOnClose := true }

/-- An open uncontrolled palette at the initial index. -/
def openState : PaletteState :=
  { internalIsOpen := true, controlledIsOpen := false, query := "", selectedIndex := JSNum.int 0 }

/-- An open palette whose selection has been moved to index 1. -/
def navState : PaletteState :=
  { internalIsOpen := true, controlledIsOpen := false, query := "", selectedIndex := JSNum.int 1 }

/-- An open palette with query `"a"` and selection at index 1. -/
def queryState : PaletteState :=
  { internalIsOpen := true, controlledIsOpen := false, query := "a", selectedIndex := JSNum.int 1 }

/-- C1 counterexample: on the example registry with query `""`, the filter
pipeline keeps the disabled `Load` command — the flat result is
`["Save", "Save As", "Load"]`, not `["Save", "Save As"]`, because the
empty-query early return skips the disabled-exclusion entirely. -/
theorem emptyQuery_keeps_disabled_cex :
    (filteredCommands (filteredGroups none (commandGroups exampleRegistry) "")).map
        Command.label = ["Save", "Save As", "Load"] ∧
    (filteredCommands (filteredGroups none (commandGroups exampleRegistry) "")).any
        Command.disabled = true := by
  constructor <;> rfl

/-- C1 (amended): for every registry and every query whose trimmed value is
empty, `filteredGroups` returns the normalized groups unchanged — every
command passes, including those whose `disabled` flag is true. -/
theorem filteredGroups_empty_query (filterFn : Option (Command → String → Bool))
    (gs : List CommandGroup) (query : String) (h : (jsTrim query).isEmpty) :
    filteredGroups filterFn gs query = gs := by
  unfold filteredGroups
  rw [if_pos h]

/-- C1 witness: the amended theorem applied to the example registry and the
empty query. -/
theorem filteredGroups_empty_query_witness :
    filteredGroups none (commandGroups exampleRegistry) "" = commandGroups exampleRegistry :=
  filteredGroups_empty_query none (commandGroups exampleRegistry) "" rfl

/-- C2: in controlled mode with an `onClose` handler supplied, every
`handleClose` run invokes `onClose` twice — once in the controlled branch
and once more unconditionally at the end — not exactly once as specified. -/
theorem handleClose_controlled_onClose_twice (st : PaletteState) :
    (handleClose controlledCfg st).2 = 2 := rfl

/-- C4 counterexample: normalizing the empty registry does not return the
empty sequence of groups. -/
theorem commandGroups_empty_cex : commandGroups (Registry.flat []) ≠ [] :=
  List.cons_ne_nil _ _

/-- C4 (amended): the empty registry (of either declared shape) normalizes
to a single synthetic group with id `"default"` and no commands, because
`firstItem` is `undefined` and the flat-list branch wraps the empty array. -/
theorem commandGroups_empty_default :
    commandGroups (Registry.flat []) = [{ id := "default", commands := [] }] ∧
    commandGroups (Registry.grouped []) = [{ id := "default", commands := [] }] :=
  ⟨rfl, rfl⟩

/-- C7 counterexample: with the palette open, three commands in the flat
list, and the selection at index 1, pressing `Home` does not move the
selection to 0 and pressing `End` does not move it to the last index 2 —
both leave it at 1, since the keydown switch has no `Home`/`End` cases. -/
theorem home_end_keys_ignored_cex :
    (handleKeyDown uncontrolledCfg [mkCmd 0, mkCmd 1, mkCmd 2] navState "Home").state.selectedIndex
      = JSNum.int 1 ∧
    (handleKeyDown uncontrolledCfg [mkCmd 0, mkCmd 1, mkCmd 2] navState "End").state.selectedIndex
      = JSNum.int 1 :=
  ⟨rfl, rfl⟩

/-- C7 (amended): `Home` and `End` key presses are not handled by the
palette's keydown handler at all: for every configuration, flat list and
state they fall through the switch and leave the state unchanged. -/
theorem home_end_keys_are_noops (cfg : PaletteConfig) (flat : List Command)
    (st : PaletteState) :
    handleKeyDown cfg flat st "Home" = ⟨st, 0, none⟩ ∧
    handleKeyDown cfg flat st "End" = ⟨st, 0, none⟩ :=
  ⟨rfl, rfl⟩

/-- C9 counterexample: a `setQuery` call whose argument equals the current
query value (here `"a"` on a state whose query is already `"a"`) does not
reset `selectedIndex`: React bails out, the `[query]` effect does not
re-run, and the index stays 1. -/
theorem setQuery_same_value_keeps_index_cex :
    (setQueryStep queryState "a").selectedIndex = JSNum.int 1 := rfl

/-- C9 (amended): after every `setQuery` call that changes the stored query
value, `selectedIndex` is 0, for every prior state. -/
theorem setQuery_changed_resets_index (st : PaletteState) (q : String)
    (h : q ≠ st.query) :
    (setQueryStep st q).selectedIndex = JSNum.int 0 := by
  unfold setQueryStep
  rw [if_neg h]

/-- C9 witness: the amended theorem applied to a state with query `"a"`,
selection index 1, and the new query `"b"`. -/
theorem setQuery_changed_resets_index_witness :
    (setQueryStep queryState "b").selectedIndex = JSNum.int 0 :=
  setQuery_changed_resets_index queryState "b" (by decide)

/-- Reduction of `handleKeyDown` at the `Enter` key: the switch selects the
Enter case. -/
theorem handleKeyDown_enter (cfg : PaletteConfig) (flat : List Command)
    (st : PaletteState) :
    handleKeyDown cfg flat st "Enter" =
      match jsIndex flat st.selectedIndex with
      | some selectedCommand =>
        if !selectedCommand.disabled then
          match selectedCommand.action with
          | ActionBehavior.ret =>
            if cfg.closeOnSelect then
              ⟨(handleClose cfg st).1, (handleClose cfg st).2, some (Except.ok ())⟩
            else ⟨st, 0, some (Except.ok ())⟩
          | ActionBehavior.throws e => ⟨st, 0, some (Except.error e)⟩
          | ActionBehavior.rejects e =>
            if cfg.closeOnSelect then
              ⟨(handleClose cfg st).1, (handleClose cfg st).2, some (Except.error e)⟩
            else ⟨st, 0, some (Except.error e)⟩
        else ⟨st, 0, none⟩
      | none => ⟨st, 0, none⟩ := rfl

/-- C3: with two groups of five matching commands each and `maxResults = 7`,
the navigation flat list (`filteredCommands`, computed from the
pre-truncation `filteredGroups`, and also the displayed results counter)
has length 10, while the rendered, truncated `limitedGroups` hold only 7
commands — the flat list is not recomputed from the truncated groups. -/
theorem flat_computed_before_truncation :
    (filteredCommands (filteredGroups none [groupA, groupB] "")).length = 10 ∧
    commandCount (limitedGroups 7 (filteredGroups none [groupA, groupB] "")) = 7 :=
  ⟨rfl, rfl⟩

/-- C5 counterexample: an open uncontrolled palette with `closeOnSelect =
true` whose selected command's action throws `"boom"` synchronously:
pressing Enter reports the error, but the state is unchanged — no close
transition is taken (`internalIsOpen` stays `true`) and `onClose` is never
called. -/
theorem throwing_action_leaves_palette_open_cex :
    handleKeyDown uncontrolledCfg [bombCmd] openState "Enter"
      = ⟨openState, 0, some (Except.error "boom")⟩ ∧
    isOpen uncontrolledCfg openState = true :=
  ⟨rfl, rfl⟩

/-- C5 (amended): a failing action's error is never caught by the palette,
but the close policy depends on the failure mode and path. A synchronous
throw aborts both the Enter handler and the click handler before the
`closeOnSelect` check: the state is unchanged, `onClose` uninvoked, the
palette stays open. A rejecting promise is not awaited on the Enter path
(`selectedCommand.action(); if (closeOnSelect) handleClose();`), so there
the close transition still runs when `closeOnSelect` is true and the
rejection escapes as an unhandled rejection; the click path awaits, so the
rejection skips the close there. -/
theorem failing_action_never_swallowed (cfg : PaletteConfig)
    (flat : List Command) (st : PaletteState) (cmd : Command) (e : String)
    (hsel : jsIndex flat st.selectedIndex = some cmd)
    (hdis : cmd.disabled = false) :
    (cmd.action = ActionBehavior.throws e →
      handleKeyDown cfg flat st "Enter" = ⟨st, 0, some (Except.error e)⟩ ∧
      handleSelectCommand cfg st cmd = ⟨st, 0, some (Except.error e)⟩) ∧
    (cmd.action = ActionBehavior.rejects e →
      handleKeyDown cfg flat st "Enter" =
        (if cfg.closeOnSelect then
          ⟨(handleClose cfg st).1, (handleClose cfg st).2, some (Except.error e)⟩
        else ⟨st, 0, some (Except.error e)⟩) ∧
      handleSelectCommand cfg st cmd = ⟨st, 0, some (Except.error e)⟩) := by
  constructor
  · intro herr
    constructor
    · rw [handleKeyDown_enter, hsel]
      simp [hdis, herr]
    · unfold handleSelectCommand
      simp [hdis, herr]
  · intro herr
    constructor
    · rw [handleKeyDown_enter, hsel]
      simp [hdis, herr]
    · unfold handleSelectCommand
      simp [hdis, herr]

/-- C5 witness: the amended theorem applied to the open uncontrolled
palette, once with the synchronously throwing command (Enter leaves the
palette open) and once with the rejecting command (Enter still closes:
`internalIsOpen` becomes `false`, yet the error is reported). -/
theorem failing_action_never_swallowed_witness :
    (handleKeyDown uncontrolledCfg [bombCmd] openState "Enter"
      = ⟨openState, 0, some (Except.error "boom")⟩) ∧
    (handleKeyDown uncontrolledCfg [rejectCmd] openState "Enter"
      = ⟨{ internalIsOpen := false, controlledIsOpen := false, query := "",
           selectedIndex := JSNum.int 0 }, 0, some (Except.error "boom")⟩) :=
  ⟨((failing_action_never_swallowed uncontrolledCfg [bombCmd] openState bombCmd
      "boom" rfl rfl).1 rfl).1,
   ((failing_action_never_swallowed uncontrolledCfg [rejectCmd] openState rejectCmd
      "boom" rfl rfl).2 rfl).1⟩

/-- C6: with the palette open on an empty flat list, ArrowDown and ArrowUp
are not no-ops: JavaScript `(0 + 1) % 0` and `(0 - 1 + 0) % 0` are `NaN`,
so `selectedIndex` becomes `NaN` instead of staying the valid integer 0. -/
theorem arrow_on_empty_flat_sets_nan :
    handleKeyDown uncontrolledCfg [] openState "ArrowDown"
      = ⟨{ openState with selectedIndex := JSNum.nan }, 0, none⟩ ∧
    handleKeyDown uncontrolledCfg [] openState "ArrowUp"
      = ⟨{ openState with selectedIndex := JSNum.nan }, 0, none⟩ :=
  ⟨rfl, rfl⟩

/-- C10: when the entry at `selectedIndex` in the flat list is disabled, or
no entry exists there at all, pressing Enter invokes no action and leaves
the whole state (open flag, query, selected index) unchanged. -/
theorem enter_disabled_or_missing_noop (cfg : PaletteConfig)
    (flat : List Command) (st : PaletteState)
    (h : (match jsIndex flat st.selectedIndex with
          | some c => c.disabled
          | none => true) = true) :
    handleKeyDown cfg flat st "Enter" = ⟨st, 0, none⟩ := by
  rw [handleKeyDown_enter]
  rcases hsel : jsIndex flat st.selectedIndex with _ | c
  · simp
  · rw [hsel] at h
    simp only [] at h
    simp [h]

/-- C10 witness: the selected entry is the disabled `Load` command; Enter
returns the state unchanged with no action invoked. -/
theorem enter_disabled_or_missing_noop_witness :
    handleKeyDown uncontrolledCfg [loadCmd] openState "Enter"
      = ⟨openState, 0, none⟩ :=
  enter_disabled_or_missing_noop uncontrolledCfg [loadCmd] openState rfl

/-- `commandCount` distributes over cons. -/
theorem commandCount_cons (g : CommandGroup) (gs : List CommandGroup) :
    commandCount (g :: gs) = g.commands.length + commandCount gs := by
  simp [commandCount]

/-- The truncation loop never emits more commands than the remaining
budget `maxResults - count`, even though the running `count` is advanced
by each group's untruncated length. -/
theorem limitedGroupsAux_count_le (maxResults : Nat) :
    ∀ (gs : List CommandGroup) (count : Nat),
      commandCount (limitedGroupsAux maxResults count gs) ≤ maxResults - count := by
  intro gs
  induction gs with
  | nil => intro count; simp [limitedGroupsAux, commandCount]
  | cons g gs ih =>
    intro count
    unfold limitedGroupsAux
    by_cases h : maxResults - count = 0
    · simp [h, commandCount]
    · rw [if_neg h]
      have hrec := ih (count + g.commands.length)
      rw [commandCount_cons]
      simp only [List.length_take]
      omega

/-- If the truncation loop emits anything, the budget was not yet
exhausted on entry. -/
theorem limitedGroupsAux_ne_nil_lt (maxResults count : Nat)
    (gs : List CommandGroup)
    (h : limitedGroupsAux maxResults count gs ≠ []) : count < maxResults := by
  cases gs with
  | nil => simp [limitedGroupsAux] at h
  | cons g gs =>
    unfold limitedGroupsAux at h
    by_cases h0 : maxResults - count = 0
    · rw [if_pos h0] at h
      exact absurd rfl h
    · omega

/-- Dropping the last emitted group, the truncation output is literally a
leading segment of its input: every group before the last one is included
in full (its `take` is the whole command list). -/
theorem limitedGroupsAux_dropLast (maxResults : Nat) :
    ∀ (gs : List CommandGroup) (count : Nat),
      ∃ t, gs = (limitedGroupsAux maxResults count gs).dropLast ++ t := by
  intro gs
  induction gs with
  | nil => intro count; exact ⟨[], by simp [limitedGroupsAux]⟩
  | cons g gs ih =>
    intro count
    by_cases h0 : maxResults - count = 0
    · exact ⟨g :: gs, by simp [limitedGroupsAux, h0]⟩
    · rcases hrec : limitedGroupsAux maxResults (count + g.commands.length) gs with _ | ⟨r, rs⟩
      · refine ⟨g :: gs, ?_⟩
        unfold limitedGroupsAux
        rw [if_neg h0, hrec]
        rfl
      · have hlt : count + g.commands.length < maxResults :=
          limitedGroupsAux_ne_nil_lt _ _ _ (by rw [hrec]; exact List.cons_ne_nil _ _)
      /- the head group is emitted in full: its length is at most the
         remaining budget -/
        have hfull : g.commands.take (maxResults - count) = g.commands :=
          List.take_of_length_le (by omega)
        obtain ⟨t, ht⟩ := ih (count + g.commands.length)
        rw [hrec] at ht
        refine ⟨t, ?_⟩
        unfold limitedGroupsAux
        rw [if_neg h0, hrec, List.dropLast_cons₂, hfull]
        rw [List.cons_append]
        exact congrArg (fun l => g :: l) ht

/-- The truncation output is positionally a `take`-truncation of the
corresponding leading input groups: ids and labels are preserved and each
emitted command list is a prefix-take of the input group's list. -/
theorem limitedGroupsAux_take_shape (maxResults : Nat) :
    ∀ (gs : List CommandGroup) (count : Nat),
      List.Forall₂
        (fun gOut gIn => gOut.id = gIn.id ∧ gOut.label = gIn.label ∧
          ∃ k, gOut.commands = gIn.commands.take k)
        (limitedGroupsAux maxResults count gs)
        (gs.take (limitedGroupsAux maxResults count gs).length) := by
  intro gs
  induction gs with
  | nil => intro count; simp [limitedGroupsAux]
  | cons g gs ih =>
    intro count
    by_cases h0 : maxResults - count = 0
    · simp [limitedGroupsAux, h0]
    · have hstep : limitedGroupsAux maxResults count (g :: gs) =
          { g with commands := g.commands.take (maxResults - count) } ::
            limitedGroupsAux maxResults (count + g.commands.length) gs := by
        conv_lhs => rw [limitedGroupsAux]
        simp [h0]
      rw [hstep]
      exact List.Forall₂.cons ⟨rfl, rfl, maxResults - count, rfl⟩
        (ih (count + g.commands.length))

/-- C8: for every sequence of filtered groups and every budget, the
truncated output (a) holds at most `maxResults` commands in total, (b) is,
apart from its last group, literally a leading run of the input groups
taken in full and in order, and (c) group-for-group carries the input's id
and label with a `take`-truncated command list. -/
theorem limitedGroups_respects_budget (maxResults : Nat)
    (gs : List CommandGroup) :
    commandCount (limitedGroups maxResults gs) ≤ maxResults ∧
    (∃ t, gs = (limitedGroups maxResults gs).dropLast ++ t) ∧
    List.Forall₂
      (fun gOut gIn => gOut.id = gIn.id ∧ gOut.label = gIn.label ∧
        ∃ k, gOut.commands = gIn.commands.take k)
      (limitedGroups maxResults gs)
      (gs.take (limitedGroups maxResults gs).length) := by
  refine ⟨?_, ?_, ?_⟩
  · have h := limitedGroupsAux_count_le maxResults gs 0
    simpa [limitedGroups] using h
  · exact limitedGroupsAux_dropLast maxResults gs 0
  · exact limitedGroupsAux_take_shape maxResults gs 0
